import Mathlib

/-!
VContainer (src/libs/vpatterndb/vcontainer.h)

A shallow embedding of the container of pattern data: the copy-on-write body
`VContainerData`, the handle `VContainer`, the typed accessors
`GeometricObject<T>` and `GetVariable<T>`, and `AddVariable<T>`.

Conventions of the embedding.

* Heap objects are named by addresses (`Nat`).  A `QSharedPointer<X>` is an
  `Option`: `none` is the null pointer, `some x` carries the address of the
  pointee together with the facts about the pointee the container reads (its
  dynamic class, and for a variable its category tag).
* The process state (`World`) holds the heap of `VContainerData` bodies, the heap of
  detail and piece tables (they are reached through `QSharedPointer`s) and the
  static members of `VContainer`.
* A member function maps the receiver and the world to an `Outcome`: a normal
  return or a thrown exception (both with the state reached), an abort
  of the process, or undefined behaviour (a null or dangling dereference).
-/

namespace Seamly2D

/-! ## Qt value types -/

/-- The Qt type `quint32`; arithmetic on it is taken modulo `2 ^ 32` where it can wrap. -/
abbrev quint32 := Nat

/-- The Qt type `QString`. -/
abbrev QString := String

/-- The name of a C++ class, standing for a static or dynamic type. -/
abbrev ClassName := String

/-- The enumeration `VarType` (declared outside the header), by enumerator value. -/
abbrev VarType := Nat

/-- A `QSharedPointer<X>`: `none` is null. -/
abbrev QSharedPointer (α : Type) := Option α

/-- The member `QSharedPointer::isNull`. -/
def QSharedPointer.isNull {α : Type} (p : QSharedPointer α) : Bool := p.isNone

/-- A `QHash<K, V>` filled through `insert` only (never `insertMulti`): a list of
entries with at most one entry for a key. -/
structure QHash (K V : Type) where
  entries : List (K × V)
  nodup : (entries.map Prod.fst).Nodup

namespace QHash

variable {K V : Type} [DecidableEq K]

instance [DecidableEq V] : DecidableEq (QHash K V) := fun a b =>
  decidable_of_iff (a.entries = b.entries)
    ⟨fun h => by cases a; cases b; cases h; rfl, fun h => by rw [h]⟩

/-- The default-constructed, empty hash. -/
def empty : QHash K V := ⟨[], List.nodup_nil⟩

/-- The keys of the hash. -/
def keys (m : QHash K V) : List K := m.entries.map Prod.fst

/-- The member `QHash::size`. -/
def size (m : QHash K V) : Nat := m.entries.length

/-- The first value stored under `k` in a list of entries. -/
def findEntries (k : K) : List (K × V) → Option V
  | [] => none
  | e :: es => if e.1 = k then some e.2 else findEntries k es

/-- The member `QHash::constFind`, `none` standing for the end iterator. -/
def find (m : QHash K V) (k : K) : Option V := findEntries k m.entries

/-- The member `QHash::contains`. -/
def contains (m : QHash K V) (k : K) : Bool := (m.find k).isSome

/-- The member `QHash::value`: the value under `k`, or a default-constructed value. -/
def value (m : QHash K V) (k : K) (dflt : V) : V := (m.find k).getD dflt

/-- Replace the value under `k`, or append a new entry. -/
def insertEntries (k : K) (v : V) : List (K × V) → List (K × V)
  | [] => [(k, v)]
  | e :: es => if e.1 = k then (k, v) :: es else e :: insertEntries k v es

theorem keys_insertEntries (k : K) (v : V) (l : List (K × V)) :
    (insertEntries k v l).map Prod.fst =
      if k ∈ l.map Prod.fst then l.map Prod.fst else l.map Prod.fst ++ [k] := by
  induction l with
  | nil => simp [insertEntries]
  | cons e es ih =>
    by_cases h : e.1 = k
    · simp [insertEntries, h]
    · have h2 : ¬ k = e.1 := fun h3 => h h3.symm
      by_cases hm : k ∈ es.map Prod.fst
      · simp only [insertEntries, h, if_false, List.map_cons, ih, hm, if_true,
          List.mem_cons, or_true]
      · simp only [insertEntries, h, if_false, List.map_cons, ih, hm, List.mem_cons, h2,
          or_self, List.cons_append]

theorem nodup_insertEntries (k : K) (v : V) (l : List (K × V))
    (h : (l.map Prod.fst).Nodup) : ((insertEntries k v l).map Prod.fst).Nodup := by
  rw [keys_insertEntries]
  split
  · exact h
  · next hk =>
    rw [List.nodup_append]
    refine ⟨h, List.nodup_singleton k, ?_⟩
    intro a ha hb
    rw [List.mem_singleton] at hb
    exact hk (hb ▸ ha)

/-- The member `QHash::insert`: the value under `k` is replaced when `k` is present. -/
def insert (m : QHash K V) (k : K) (v : V) : QHash K V :=
  ⟨insertEntries k v m.entries, nodup_insertEntries k v m.entries m.nodup⟩

/-- The member `QHash::remove`. -/
def remove (m : QHash K V) (k : K) : QHash K V :=
  ⟨m.entries.filter (fun e => decide (e.1 ≠ k)),
    (m.nodup.sublist (List.Sublist.map Prod.fst (List.filter_sublist m.entries)))⟩

/-- An address no entry of an address-keyed table uses (the result of `new`). -/
def fresh {α : Type} (m : QHash Nat α) : Nat := (m.entries.map Prod.fst).foldr max 0 + 1

end QHash

/-- The Qt type `QSet<QString>`, by its members. -/
abbrev QSet := List QString

/-- The member `QSet::insert`. -/
def QSet.insert (s : QSet) (x : QString) : QSet := if x ∈ s then s else x :: s

/-! ## Stored entities -/

/-- A `VGObject` instance on the heap, as seen through a pointer: its address
and its dynamic class. -/
structure VGObject where
  addr : Nat
  dynClass : ClassName
  deriving DecidableEq, Repr

/-- A `VInternalVariable` instance on the heap, as seen through a pointer: its
address, its dynamic class and the category tag `GetType()` returns. -/
structure VInternalVariable where
  addr : Nat
  dynClass : ClassName
  type : VarType
  deriving DecidableEq, Repr

/-- The member `VInternalVariable::GetType`. -/
def VInternalVariable.GetType (v : VInternalVariable) : VarType := v.type

/-- A `VDetail` value, by the ids of the objects it refers to. -/
structure VDetail where
  nodes : List quint32
  deriving DecidableEq, Repr

/-- A `VPiece` value, by the ids of the objects it refers to. -/
structure VPiece where
  nodes : List quint32
  deriving DecidableEq, Repr

/-- The function `qSharedPointerDynamicCast<T>`: the same pointer when the dynamic
class of the pointee is `T` or derives from `T` (`isA`), null otherwise.  It
never throws. -/
def qSharedPointerDynamicCast {α : Type} (isA : ClassName → ClassName → Bool)
    (dynClass : α → ClassName) (T : ClassName) (p : QSharedPointer α) : QSharedPointer α :=
  match p with
  | none => none
  | some x => if isA (dynClass x) T then some x else none

/-! ## The shared body -/

/-- The class `VContainerData`; `ref` is the counter of its base `QSharedData`,
`details` and `pieces` are shared pointers to tables on the heap, `trVars` and
`patternUnit` plain pointers.  The member `variables` is written `variables_`
(the plain word is reserved). -/
structure VContainerData where
  ref : Int
  gObjects : QHash quint32 (QSharedPointer VGObject)
  variables_ : QHash QString (QSharedPointer VInternalVariable)
  details : QSharedPointer Nat
  pieces : QSharedPointer Nat
  trVars : Nat
  patternUnit : Nat
  deriving DecidableEq

/-- The copy constructor `VContainerData(const VContainerData &data)`:
`QSharedData(data)` starts the counter at 0; the initialiser list names
`gObjects`, `variables`, `details`, `trVars` and `patternUnit`; `pieces` is not
named, so it is default-constructed (null). -/
def VContainerData.copy (data : VContainerData) : VContainerData :=
  { ref := 0
    gObjects := data.gObjects
    variables_ := data.variables_
    details := data.details
    pieces := none
    trVars := data.trVars
    patternUnit := data.patternUnit }

/-- The class `VContainer`: the `QSharedDataPointer<VContainerData> d`, by address. -/
structure VContainer where
  d : Nat
  deriving DecidableEq, Repr

/-- The process state: the heap of bodies, the heaps of detail and piece
tables, and the static members `_id` and `uniqueNames` of `VContainer`. -/
structure World where
  bodies : QHash Nat VContainerData
  detailTables : QHash Nat (QHash quint32 VDetail)
  pieceTables : QHash Nat (QHash quint32 VPiece)
  _id : quint32
  uniqueNames : QSet
  deriving DecidableEq

/-! ## Outcomes -/

/-- The exceptions the header names: `std::bad_alloc`, and `VExceptionBadId`
with its message and the id or the name it was raised for. -/
inductive Exception where
  | bad_alloc
  | VExceptionBadId (what : String) (key : quint32 ⊕ QString)
  deriving DecidableEq

/-- The outcome of a call on state `σ`: a normal return, a thrown exception,
an abort of the process, or undefined behaviour. -/
inductive Outcome (σ α : Type) where
  | ok (a : α) (s : σ)
  | thrown (e : Exception) (s : σ)
  | aborted
  | undefined
  deriving DecidableEq

/-- The value, exception or fault of an outcome, without the state. -/
inductive Result (α : Type) where
  | value (a : α)
  | thrown (e : Exception)
  | aborted
  | undefined
  deriving DecidableEq

/-- The result of an outcome. -/
def Outcome.result {σ α : Type} : Outcome σ α → Result α
  | .ok a _ => .value a
  | .thrown e _ => .thrown e
  | .aborted => .aborted
  | .undefined => .undefined

/-- The state an outcome leaves, when the process goes on. -/
def Outcome.state {σ α : Type} : Outcome σ α → Option σ
  | .ok _ s => some s
  | .thrown _ s => some s
  | .aborted => none
  | .undefined => none

/-- A block `try { body } catch (const std::bad_alloc &) { handler }`. -/
def Outcome.catchBadAlloc {σ α : Type} (body : Outcome σ α) (handler : σ → Outcome σ α) :
    Outcome σ α :=
  match body with
  | .thrown .bad_alloc s => handler s
  | o => o

/-- The macro `SCASSERT(cond)` (defined outside the header), by whether
execution goes on past it: with assertions compiled in (`asserts`) a false
condition aborts the process; compiled out, the macro is a no-op. -/
def SCASSERT (asserts : Bool) (cond : Bool) : Bool := !asserts || cond

/-- The function `tr`: the translation of a source text, here the text itself. -/
def tr (s : String) : String := s

/-- The text of the error raised for an absent id or name. -/
def msgFind : String := "Can't find object"

/-- The text of the error the handlers of the accessors raise. -/
def msgCast : String := "Can't cast object"

/-- The text of the error `AddVariable` raises. -/
def msgMismatch : String := "Can't find object. Type mismatch."

/-- State of a member call: the receiver and the world. -/
abbrev State := VContainer × World

/-! ## Construction and sharing of bodies -/

/-- The constructor `VContainerData(trVars, patternUnit)`: empty `gObjects` and
`variables`, and a new empty table each for `details` and `pieces`.  The counter
of a new `QSharedData` is 0. -/
def VContainerData.create (trVars patternUnit : Nat) (w : World) : VContainerData × World :=
  let dt := w.detailTables.fresh
  let pt := w.pieceTables.fresh
  ({ ref := 0
     gObjects := QHash.empty
     variables_ := QHash.empty
     details := some dt
     pieces := some pt
     trVars := trVars
     patternUnit := patternUnit },
   { w with
     detailTables := w.detailTables.insert dt QHash.empty
     pieceTables := w.pieceTables.insert pt QHash.empty })

/-- The body a container points to (`d->` on a const receiver, which never
detaches); `none` when `d` is null or dangling. -/
def constData (s : State) : Option VContainerData := s.2.bodies.find s.1.d

/-- The member `QSharedDataPointer::detach`: when the counter of the body is not 1,
`detach_helper` clones the body with the copy constructor into a new cell,
counts the receiver on the clone, drops it from the old body (deleting the old
body when its counter reaches 0) and points `d` to the clone. -/
def detach (s : State) : Option State :=
  match s.2.bodies.find s.1.d with
  | none => none
  | some b =>
    if b.ref ≠ 1 then
      let x := s.2.bodies.fresh
      let clone := b.copy
      let bodies := s.2.bodies.insert x { clone with ref := clone.ref + 1 }
      let bodies :=
        if b.ref - 1 = 0 then bodies.remove s.1.d
        else bodies.insert s.1.d { b with ref := b.ref - 1 }
      some ({ d := x }, { s.2 with bodies := bodies })
    else some s

/-- The access `d->` on a non-const receiver: `detach()`, then the body. -/
def data (s : State) : Option (VContainerData × State) :=
  match detach s with
  | none => none
  | some s1 =>
    match constData s1 with
    | none => none
    | some b => some (b, s1)

/-- A write through the reference `d->` gave: the body of the receiver is replaced. -/
def setData (s : State) (b : VContainerData) : State :=
  (s.1, { s.2 with bodies := s.2.bodies.insert s.1.d b })

/-- Modelled from the spec: the copy constructor `VContainer(const VContainer &data)`,
defined outside the header.  "Duplicating a snapshot is O(1) (shares the same
body)": the copy points to the body of `data`, whose counter the copy of the
`QSharedDataPointer` increments. -/
def VContainer.copy (data : VContainer) (w : World) : Option (VContainer × World) :=
  match w.bodies.find data.d with
  | none => none
  | some b =>
    some ({ d := data.d }, { w with bodies := w.bodies.insert data.d { b with ref := b.ref + 1 } })

/-! ## The templated members of `VContainer` -/

/-- The member `VContainer::GeometricObject<T>(id) const`. -/
def VContainer.GeometricObject (isA : ClassName → ClassName → Bool) (asserts : Bool)
    (T : ClassName) (id : quint32) (s : State) : Outcome State (QSharedPointer VGObject) :=
  match constData s with
  | none => .undefined
  | some d =>
    if d.gObjects.contains id then
      let gObj : QSharedPointer VGObject := d.gObjects.value id none
      Outcome.catchBadAlloc
        (let obj := qSharedPointerDynamicCast isA VGObject.dynClass T gObj
         if SCASSERT asserts (obj.isNull == false) then .ok obj s else .aborted)
        (fun s1 => .thrown (.VExceptionBadId (tr msgCast) (.inl id)) s1)
    else
      .thrown (.VExceptionBadId (tr msgFind) (.inl id)) s

/-- The member `VContainer::GetVariable<T>(name) const`. -/
def VContainer.GetVariable (isA : ClassName → ClassName → Bool) (asserts : Bool)
    (T : ClassName) (name : QString) (s : State) :
    Outcome State (QSharedPointer VInternalVariable) :=
  if SCASSERT asserts (name.isEmpty == false) then
    match constData s with
    | none => .undefined
    | some d =>
      if d.variables_.contains name then
        Outcome.catchBadAlloc
          (let value := qSharedPointerDynamicCast isA VInternalVariable.dynClass T
             (d.variables_.value name none)
           if SCASSERT asserts (value.isNull == false) then .ok value s else .aborted)
          (fun s1 => .thrown (.VExceptionBadId (tr msgCast) (.inr name)) s1)
      else
        .thrown (.VExceptionBadId (tr msgFind) (.inr name)) s
  else .aborted

/-- The two closing statements of `AddVariable`:
`d->variables.insert(name, QSharedPointer<T>(var)); uniqueNames.insert(name);`. -/
def insertAndRecord (name : QString) (var : Option VInternalVariable) (s : State) :
    Outcome State Unit :=
  match data s with
  | none => .undefined
  | some (d, s1) =>
    let s2 := setData s1 { d with variables_ := d.variables_.insert name var }
    .ok () (s2.1, { s2.2 with uniqueNames := s2.2.uniqueNames.insert name })

/-- The member `VContainer::AddVariable<T>(name, var)`; `var` is a raw pointer
(`none` when null).  Every `d->` detaches first; a `->GetType()` through a null
pointer is undefined behaviour. -/
def VContainer.AddVariable (name : QString) (var : Option VInternalVariable) (s : State) :
    Outcome State Unit :=
  match data s with
  | none => .undefined
  | some (d1, s1) =>
    if d1.variables_.contains name then
      match data s1 with
      | none => .undefined
      | some (d2, s2) =>
        match d2.variables_.value name none, var with
        | some stored, some v =>
          if stored.GetType = v.GetType then
            match data s2 with
            | none => .undefined
            | some (d3, s3) =>
              -- d->variables[name].clear()
              insertAndRecord name var
                (setData s3 { d3 with variables_ := d3.variables_.insert name none })
          else
            .thrown (.VExceptionBadId (tr msgMismatch) (.inr name)) s2
        | _, _ => .undefined
    else
      insertAndRecord name var s1

/-- The statement `d->details->insert(id, detail)` through a body: `none` when the
`details` pointer is null or dangling. -/
def detailsInsert (b : VContainerData) (id : quint32) (detail : VDetail) (w : World) :
    Option World :=
  match b.details with
  | none => none
  | some a =>
    match w.detailTables.find a with
    | none => none
    | some t => some { w with detailTables := w.detailTables.insert a (t.insert id detail) }

/-- The lookup `d->details->constFind(id)` through a body: `none` when the
`details` pointer is null or dangling. -/
def detailsFind (b : VContainerData) (id : quint32) (w : World) : Option (Option VDetail) :=
  match b.details with
  | none => none
  | some a => (w.detailTables.find a).map (fun t => t.find id)

/-! ## The identity allocator

The header declares `static quint32 _id` ("current id. New object will have
value +1. For empty class equal 0.") and the three static members below; their
bodies are defined outside the header. -/

/-- The largest value of a `quint32`. -/
def UINT_MAX : Nat := 2 ^ 32 - 1

/-- Modelled from the spec: the body of `VContainer::getId`, defined outside the
header.  "Returns the most recently allocated id (0 if none yet allocated);
does not allocate." -/
def VContainer.getId (w : World) : quint32 := w._id

/-- Modelled from the spec: the body of `VContainer::getNextId`, defined outside
the header.  "Increments the counter and returns the new id."  The counter is
the `quint32` the header declares, so the increment is taken modulo `2 ^ 32`. -/
def VContainer.getNextId (w : World) : quint32 × World :=
  let next := (w._id + 1) % 2 ^ 32
  (next, { w with _id := next })

/-- Modelled from the spec: the body of `VContainer::UpdateId`, defined outside the
header.  "If `n` exceeds the current counter, raises the counter to `n`;
otherwise no-op." -/
def VContainer.UpdateId (newId : quint32) (w : World) : World :=
  if newId > w._id then { w with _id := newId } else w

/-- A call of one of the three static members of the allocator. -/
inductive IdCall where
  | getId
  | getNextId
  | UpdateId (newId : quint32)
  deriving DecidableEq, Repr

/-- What a run of allocator calls shows of ids: an id `getNextId` returned, or an
id passed to `UpdateId`. -/
inductive IdEvent where
  | returned (id : quint32)
  | passed (id : quint32)
  deriving DecidableEq, Repr

/-- The id of an event. -/
def IdEvent.id : IdEvent → quint32
  | .returned id => id
  | .passed id => id

/-- The ids `getNextId` returned, in order. -/
def returnedIds : List IdEvent → List quint32
  | [] => []
  | .returned id :: es => id :: returnedIds es
  | .passed _ :: es => returnedIds es

/-- A run of allocator calls from a world: the events in order, and the world
reached. -/
def runIdCalls : List IdCall → World → List IdEvent × World
  | [], w => ([], w)
  | .getId :: cs, w => runIdCalls cs w
  | .getNextId :: cs, w =>
    let r := VContainer.getNextId w
    let rest := runIdCalls cs r.2
    (.returned r.1 :: rest.1, rest.2)
  | .UpdateId n :: cs, w =>
    let rest := runIdCalls cs (VContainer.UpdateId n w)
    (.passed n :: rest.1, rest.2)

/-- No `getNextId` of the run is issued with the counter at `UINT_MAX`, and every
argument of `UpdateId` is a `quint32`. -/
def noWrap : List IdCall → World → Bool
  | [], _ => true
  | .getId :: cs, w => noWrap cs w
  | .getNextId :: cs, w => decide (w._id < UINT_MAX) && noWrap cs (VContainer.getNextId w).2
  | .UpdateId n :: cs, w => decide (n ≤ UINT_MAX) && noWrap cs (VContainer.UpdateId n w)

/-! ## Sample data -/

/-- A sample class relation: every class is itself, object classes derive
from `VGObject`, variable classes from `VInternalVariable`, and `VArc` from
`VAbstractCurve`. -/
def sampleIsA (U T : ClassName) : Bool :=
  U == T || (T == "VGObject" && (U == "VPointF" || U == "VArc" || U == "VAbstractCurve"))
    || (T == "VInternalVariable" && (U == "VMeasurement" || U == "VIncrement"))
    || (U == "VArc" && T == "VAbstractCurve")

/-- A sample point object. -/
def samplePoint : VGObject := { addr := 100, dynClass := "VPointF" }

/-- A sample arc object. -/
def sampleArc : VGObject := { addr := 101, dynClass := "VArc" }

/-- A sample measurement, with category tag 0. -/
def sampleMeasurement : VInternalVariable := { addr := 200, dynClass := "VMeasurement", type := 0 }

/-- A sample increment, with category tag 1. -/
def sampleIncrement : VInternalVariable := { addr := 201, dynClass := "VIncrement", type := 1 }

/-- A second measurement, with the category tag of the first. -/
def sampleMeasurement2 : VInternalVariable := { addr := 202, dynClass := "VMeasurement", type := 0 }

/-- A sample body: objects 1 (a point) and 2 (an arc), the variable `bust`, and
detail and piece tables at address 1. -/
def sampleData : VContainerData :=
  { ref := 1
    gObjects := (QHash.empty.insert 1 (some samplePoint)).insert 2 (some sampleArc)
    variables_ := QHash.empty.insert "bust" (some sampleMeasurement)
    details := some 1
    pieces := some 1
    trVars := 7
    patternUnit := 8 }

/-- A sample world: one body at address 1, held by one container. -/
def sampleWorld : World :=
  { bodies := QHash.empty.insert 1 sampleData
    detailTables := QHash.empty.insert 1 QHash.empty
    pieceTables := QHash.empty.insert 1 (QHash.empty.insert 5 { nodes := [1, 2] })
    _id := 5
    uniqueNames := ["bust"] }

/-- The container that holds the sample body. -/
def sampleContainer : VContainer := { d := 1 }

/-- The sample world once the sample container has been copied: the counter of
the body is 2. -/
def sampleSharedWorld : World :=
  { sampleWorld with bodies := QHash.empty.insert 1 { sampleData with ref := 2 } }

/-- The sample body once the sample container has been copied. -/
def sampleSharedData : VContainerData := { sampleData with ref := 2 }

/-! ## Facts about `QHash` -/

namespace QHash

variable {K V : Type} [DecidableEq K]

omit [DecidableEq K] in
theorem ext_entries {a b : QHash K V} (h : a.entries = b.entries) : a = b := by
  cases a; cases b; cases h; rfl

theorem findEntries_insertEntries_self (k : K) (v : V) (l : List (K × V)) :
    findEntries k (insertEntries k v l) = some v := by
  induction l with
  | nil => simp [insertEntries, findEntries]
  | cons e es ih =>
    by_cases h : e.1 = k
    · simp [insertEntries, findEntries, h]
    · simp [insertEntries, findEntries, h, ih]

theorem findEntries_insertEntries_ne {k j : K} (v : V) (l : List (K × V)) (hne : j ≠ k) :
    findEntries j (insertEntries k v l) = findEntries j l := by
  induction l with
  | nil =>
    have h2 : ¬ k = j := fun h3 => hne h3.symm
    simp [insertEntries, findEntries, h2]
  | cons e es ih =>
    by_cases h : e.1 = k
    · have h2 : ¬ k = j := fun h3 => hne h3.symm
      have h4 : ¬ e.1 = j := fun h3 => hne (h3.symm.trans h)
      simp [insertEntries, findEntries, h, h2, h4]
    · by_cases hj : e.1 = j
      · simp [insertEntries, findEntries, h, hj, hne]
      · simp [insertEntries, findEntries, h, hj, ih]

theorem length_insertEntries (k : K) (v : V) (l : List (K × V)) :
    (insertEntries k v l).length =
      if (findEntries k l).isSome then l.length else l.length + 1 := by
  induction l with
  | nil => simp [insertEntries, findEntries]
  | cons e es ih =>
    by_cases h : e.1 = k
    · simp [insertEntries, findEntries, h]
    · simp only [insertEntries, findEntries, h, if_false, List.length_cons, ih]
      split <;> rfl

theorem insertEntries_insertEntries (k : K) (u v : V) (l : List (K × V)) :
    insertEntries k v (insertEntries k u l) = insertEntries k v l := by
  induction l with
  | nil => simp [insertEntries]
  | cons e es ih =>
    by_cases h : e.1 = k
    · simp [insertEntries, h]
    · simp [insertEntries, h, ih]

theorem findEntries_eq_none_of_not_mem (k : K) (l : List (K × V))
    (h : k ∉ l.map Prod.fst) : findEntries k l = none := by
  induction l with
  | nil => rfl
  | cons e es ih =>
    have h1 : ¬ e.1 = k := fun h3 => h (by simp [h3])
    have h2 : k ∉ es.map Prod.fst := fun h3 => h (by simp only [List.map_cons, List.mem_cons, h3, or_true])
    simp [findEntries, h1, ih h2]

theorem mem_keys_of_findEntries {k : K} {v : V} {l : List (K × V)}
    (h : findEntries k l = some v) : k ∈ l.map Prod.fst := by
  by_contra hc
  rw [findEntries_eq_none_of_not_mem k l hc] at h
  cases h

theorem find_insert_self (m : QHash K V) (k : K) (v : V) : (m.insert k v).find k = some v :=
  findEntries_insertEntries_self k v m.entries

theorem find_insert_ne (m : QHash K V) {k j : K} (v : V) (hne : j ≠ k) :
    (m.insert k v).find j = m.find j :=
  findEntries_insertEntries_ne v m.entries hne

theorem size_insert (m : QHash K V) (k : K) (v : V) :
    (m.insert k v).size = if m.contains k then m.size else m.size + 1 :=
  length_insertEntries k v m.entries

theorem insert_insert (m : QHash K V) (k : K) (u v : V) :
    (m.insert k u).insert k v = m.insert k v :=
  ext_entries (insertEntries_insertEntries k u v m.entries)

theorem le_foldr_max (l : List Nat) (a : Nat) (h : a ∈ l) : a ≤ l.foldr max 0 := by
  induction l with
  | nil => cases h
  | cons x xs ih =>
    rcases List.mem_cons.mp h with h1 | h1
    · rw [h1]; exact le_max_left _ _
    · exact le_trans (ih h1) (le_max_right _ _)

theorem fresh_not_mem {α : Type} (m : QHash Nat α) : m.fresh ∉ m.entries.map Prod.fst := by
  intro h
  have h1 := le_foldr_max _ _ h
  unfold fresh at h1
  omega

theorem find_fresh {α : Type} (m : QHash Nat α) : m.find m.fresh = none :=
  findEntries_eq_none_of_not_mem _ _ (fresh_not_mem m)

theorem ne_fresh_of_find {α : Type} {m : QHash Nat α} {a : Nat} {x : α}
    (h : m.find a = some x) : a ≠ m.fresh := by
  intro hc
  rw [hc, find_fresh] at h
  cases h

theorem count_keys_of_find {m : QHash K V} {k : K} {v : V} (h : m.find k = some v) :
    m.keys.count k = 1 :=
  List.count_eq_one_of_mem m.nodup (mem_keys_of_findEntries h)

end QHash

/-! ## Facts about the accessors -/

theorem contains_of_find {K V : Type} [DecidableEq K] {m : QHash K V} {k : K} {v : V}
    (h : m.find k = some v) : m.contains k = true := by
  simp [QHash.contains, h]

theorem value_of_find {K V : Type} [DecidableEq K] {m : QHash K V} {k : K} {v : V} (dflt : V)
    (h : m.find k = some v) : m.value k dflt = v := by
  simp [QHash.value, h]

/-- On a present id the accessor returns the cast handle, or aborts on a null
cast when assertions are compiled in: the handler of `std::bad_alloc` is never
entered. -/
theorem GeometricObject_present (isA : ClassName → ClassName → Bool) (asserts : Bool)
    (T : ClassName) (id : quint32) (s : State) (d : VContainerData)
    (hd : constData s = some d) (hc : d.gObjects.contains id = true) :
    VContainer.GeometricObject isA asserts T id s =
      if SCASSERT asserts
          ((qSharedPointerDynamicCast isA VGObject.dynClass T
            (d.gObjects.value id none)).isNull == false)
      then .ok (qSharedPointerDynamicCast isA VGObject.dynClass T (d.gObjects.value id none)) s
      else .aborted := by
  unfold VContainer.GeometricObject
  simp only [hd, hc, if_true]
  split <;> rfl

/-- On an absent id the accessor throws the error of a failed lookup. -/
theorem GeometricObject_absent (isA : ClassName → ClassName → Bool) (asserts : Bool)
    (T : ClassName) (id : quint32) (s : State) (d : VContainerData)
    (hd : constData s = some d) (hc : d.gObjects.contains id = false) :
    VContainer.GeometricObject isA asserts T id s =
      .thrown (.VExceptionBadId msgFind (.inl id)) s := by
  unfold VContainer.GeometricObject
  simp [hd, hc, tr]

/-- The check of the name passes when the name is not empty. -/
theorem SCASSERT_nonempty (asserts : Bool) (name : QString) (hn : name.isEmpty = false) :
    SCASSERT asserts (name.isEmpty == false) = true := by
  simp [SCASSERT, hn]

/-- Past the check of the name, on a bound name the accessor returns the cast
handle, or aborts on a null cast when assertions are compiled in. -/
theorem GetVariable_present (isA : ClassName → ClassName → Bool) (asserts : Bool)
    (T : ClassName) (name : QString) (s : State) (d : VContainerData)
    (h1 : SCASSERT asserts (name.isEmpty == false) = true)
    (hd : constData s = some d) (hc : d.variables_.contains name = true) :
    VContainer.GetVariable isA asserts T name s =
      if SCASSERT asserts
          ((qSharedPointerDynamicCast isA VInternalVariable.dynClass T
            (d.variables_.value name none)).isNull == false)
      then .ok (qSharedPointerDynamicCast isA VInternalVariable.dynClass T
        (d.variables_.value name none)) s
      else .aborted := by
  unfold VContainer.GetVariable
  simp only [h1, hd, hc, if_true]
  split <;> rfl

/-- Past the check of the name, on an unbound name the accessor throws the error
of a failed lookup. -/
theorem GetVariable_absent (isA : ClassName → ClassName → Bool) (asserts : Bool)
    (T : ClassName) (name : QString) (s : State) (d : VContainerData)
    (h1 : SCASSERT asserts (name.isEmpty == false) = true)
    (hd : constData s = some d) (hc : d.variables_.contains name = false) :
    VContainer.GetVariable isA asserts T name s =
      .thrown (.VExceptionBadId msgFind (.inr name)) s := by
  unfold VContainer.GetVariable
  simp only [h1, hd, hc, if_true, tr]
  rfl

/-- When the check of the name fails the accessor aborts. -/
theorem GetVariable_rejected (isA : ClassName → ClassName → Bool) (asserts : Bool)
    (T : ClassName) (name : QString) (s : State)
    (h1 : SCASSERT asserts (name.isEmpty == false) = false) :
    VContainer.GetVariable isA asserts T name s = .aborted := by
  unfold VContainer.GetVariable
  simp only [h1]
  rfl

/-! ## Facts about detaching -/

/-- The state `AddVariable` returns in: the body of the receiver binds `name`
to `var`, and `name` is in the registry. -/
def committed (name : QString) (var : Option VInternalVariable) (d1 : VContainerData)
    (s1 : State) : State :=
  (s1.1,
    { s1.2 with
      bodies := s1.2.bodies.insert s1.1.d { d1 with variables_ := d1.variables_.insert name var }
      uniqueNames := s1.2.uniqueNames.insert name })

theorem constData_setData (s : State) (b : VContainerData) : constData (setData s b) = some b := by
  simp [constData, setData, QHash.find_insert_self]

theorem data_unshared (s : State) (b : VContainerData) (hb : constData s = some b)
    (hr : b.ref = 1) : data s = some (b, s) := by
  unfold constData at hb
  simp [data, detach, hb, hr, constData]

theorem data_shared (s : State) (b : VContainerData) (hb : constData s = some b)
    (hr : b.ref ≠ 1) :
    data s = some ({ b.copy with ref := 1 },
      ({ d := s.2.bodies.fresh },
        { s.2 with
          bodies := (s.2.bodies.insert s.2.bodies.fresh { b.copy with ref := 1 }).insert s.1.d
            { b with ref := b.ref - 1 } })) := by
  unfold constData at hb
  have h0 : ¬ (b.ref - 1 = 0) := by omega
  have hne : s.2.bodies.fresh ≠ s.1.d := fun h => QHash.ne_fresh_of_find hb h.symm
  simp [data, detach, hb, hr, h0, constData, QHash.find_insert_ne _ _ hne,
    QHash.find_insert_self, VContainerData.copy]

/-- What the first `d->` of a mutating member leaves: a body of the receiver
with counter 1 and the maps and pointers of the body before; the static members
and the tables are untouched. -/
theorem data_spec (s : State) (b : VContainerData) (hb : constData s = some b) :
    ∃ d1 s1, data s = some (d1, s1) ∧ constData s1 = some d1 ∧ d1.ref = 1 ∧
      d1.gObjects = b.gObjects ∧ d1.variables_ = b.variables_ ∧ d1.details = b.details ∧
      d1.trVars = b.trVars ∧ d1.patternUnit = b.patternUnit ∧
      s1.2.uniqueNames = s.2.uniqueNames ∧ s1.2._id = s.2._id ∧
      s1.2.detailTables = s.2.detailTables ∧ s1.2.pieceTables = s.2.pieceTables ∧
      (b.ref = 1 → s1 = s ∧ d1 = b) ∧
      (b.ref ≠ 1 → s1.1.d ≠ s.1.d ∧ s1.2.bodies.find s.1.d = some { b with ref := b.ref - 1 } ∧
        d1.pieces = none) := by
  by_cases hr : b.ref = 1
  · refine ⟨b, s, data_unshared s b hb hr, hb, hr, rfl, rfl, rfl, rfl, rfl, rfl, rfl, rfl, rfl,
      fun _ => ⟨rfl, rfl⟩, fun h => absurd hr h⟩
  · have hne : s.2.bodies.fresh ≠ s.1.d := fun h => QHash.ne_fresh_of_find hb h.symm
    refine ⟨_, _, data_shared s b hb hr, ?_, rfl, rfl, rfl, rfl, rfl, rfl, rfl, rfl, rfl, rfl,
      fun h => absurd h hr, fun _ => ⟨hne, ?_, rfl⟩⟩
    · simp [constData, QHash.find_insert_ne _ _ hne, QHash.find_insert_self]
    · simp [QHash.find_insert_self]

/-- The body of `AddVariable` once the first `d->` has detached the receiver. -/
theorem AddVariable_after_data (name : QString) (var : Option VInternalVariable)
    (s s1 : State) (d1 : VContainerData) (h : data s = some (d1, s1))
    (hc : constData s1 = some d1) (hr : d1.ref = 1) :
    VContainer.AddVariable name var s =
      if d1.variables_.contains name then
        match d1.variables_.value name none, var with
        | some stored, some v =>
          if stored.GetType = v.GetType then .ok () (committed name var d1 s1)
          else .thrown (.VExceptionBadId msgMismatch (.inr name)) s1
        | _, _ => .undefined
      else .ok () (committed name var d1 s1) := by
  have h1 : data s1 = some (d1, s1) := data_unshared s1 d1 hc hr
  unfold VContainer.AddVariable
  simp only [h]
  by_cases hcn : d1.variables_.contains name = true
  · simp only [hcn, if_true, h1]
    cases hv : d1.variables_.value name none with
    | none => rfl
    | some stored =>
      cases var with
      | none => rfl
      | some v =>
        simp only []
        by_cases ht : stored.GetType = v.GetType
        · simp only [ht, if_true]
          have h4 : data (setData s1 { d1 with variables_ := d1.variables_.insert name none })
              = some ({ d1 with variables_ := d1.variables_.insert name none },
                  setData s1 { d1 with variables_ := d1.variables_.insert name none }) :=
            data_unshared _ _ (constData_setData _ _) hr
          simp only [insertAndRecord, h4]
          simp only [committed, setData, QHash.insert_insert]
        · simp only [ht, if_false, tr]
  · simp only [hcn, if_false, insertAndRecord, h1, committed, setData]
    rfl

theorem constData_committed (name : QString) (var : Option VInternalVariable)
    (d1 : VContainerData) (s1 : State) :
    constData (committed name var d1 s1) =
      some { d1 with variables_ := d1.variables_.insert name var } := by
  simp [constData, committed, QHash.find_insert_self]

/-- The accessor of objects reads the objects map of the body only. -/
theorem GeometricObject_result_congr (isA : ClassName → ClassName → Bool) (asserts : Bool)
    (T : ClassName) (id : quint32) (s t : State) (b c : VContainerData)
    (hs : constData s = some b) (ht : constData t = some c) (hg : b.gObjects = c.gObjects) :
    (VContainer.GeometricObject isA asserts T id s).result =
      (VContainer.GeometricObject isA asserts T id t).result := by
  cases hc : b.gObjects.contains id with
  | true =>
    rw [GeometricObject_present isA asserts T id s b hs hc,
      GeometricObject_present isA asserts T id t c ht (hg ▸ hc), hg]
    split <;> rfl
  | false =>
    rw [GeometricObject_absent isA asserts T id s b hs hc,
      GeometricObject_absent isA asserts T id t c ht (hg ▸ hc)]
    rfl

/-- The accessor of variables reads the variables map of the body only. -/
theorem GetVariable_result_congr (isA : ClassName → ClassName → Bool) (asserts : Bool)
    (T : ClassName) (name : QString) (s t : State) (b c : VContainerData)
    (hs : constData s = some b) (ht : constData t = some c)
    (hv : b.variables_ = c.variables_) :
    (VContainer.GetVariable isA asserts T name s).result =
      (VContainer.GetVariable isA asserts T name t).result := by
  cases h1 : SCASSERT asserts (name.isEmpty == false) with
  | false =>
    rw [GetVariable_rejected isA asserts T name s h1, GetVariable_rejected isA asserts T name t h1]
  | true =>
    cases hc : b.variables_.contains name with
    | true =>
      rw [GetVariable_present isA asserts T name s b h1 hs hc,
        GetVariable_present isA asserts T name t c h1 ht (hv ▸ hc), hv]
      split <;> rfl
    | false =>
      rw [GetVariable_absent isA asserts T name s b h1 hs hc,
        GetVariable_absent isA asserts T name t c h1 ht (hv ▸ hc)]
      rfl

/-- A mutating call on a shared body leaves the body it forked from in place,
with its objects and variables maps as they were. -/
theorem AddVariable_frame (name : QString) (var : Option VInternalVariable) (s s2 : State)
    (b : VContainerData) (hb : constData s = some b) (hr : b.ref ≠ 1)
    (h2 : (VContainer.AddVariable name var s).state = some s2) :
    ∃ src, s2.2.bodies.find s.1.d = some src ∧ src.gObjects = b.gObjects ∧
      src.variables_ = b.variables_ := by
  have hne : s.2.bodies.fresh ≠ s.1.d := fun h => QHash.ne_fresh_of_find hb h.symm
  have hc : constData (({ d := s.2.bodies.fresh } : VContainer),
      ({ s.2 with
          bodies := (s.2.bodies.insert s.2.bodies.fresh { b.copy with ref := 1 }).insert s.1.d
            { b with ref := b.ref - 1 } } : World)) = some { b.copy with ref := 1 } := by
    simp [constData, QHash.find_insert_ne _ _ hne, QHash.find_insert_self]
  rw [AddVariable_after_data name var s _ _ (data_shared s b hb hr) hc rfl] at h2
  have hs1 : ∀ t : State, some (({ d := s.2.bodies.fresh } : VContainer),
      ({ s.2 with
          bodies := (s.2.bodies.insert s.2.bodies.fresh { b.copy with ref := 1 }).insert s.1.d
            { b with ref := b.ref - 1 } } : World)) = some t →
      ∃ src, t.2.bodies.find s.1.d = some src ∧ src.gObjects = b.gObjects ∧
        src.variables_ = b.variables_ := by
    intro t h
    cases h
    exact ⟨_, QHash.find_insert_self _ _ _, rfl, rfl⟩
  have hs2 : ∀ t : State, some (committed name var { b.copy with ref := 1 }
      (({ d := s.2.bodies.fresh } : VContainer),
      ({ s.2 with
          bodies := (s.2.bodies.insert s.2.bodies.fresh { b.copy with ref := 1 }).insert s.1.d
            { b with ref := b.ref - 1 } } : World))) = some t →
      ∃ src, t.2.bodies.find s.1.d = some src ∧ src.gObjects = b.gObjects ∧
        src.variables_ = b.variables_ := by
    intro t h
    cases h
    refine ⟨{ b with ref := b.ref - 1 }, ?_, rfl, rfl⟩
    simp only [committed]
    rw [QHash.find_insert_ne _ _ (Ne.symm hne)]
    exact QHash.find_insert_self _ _ _
  split at h2
  · split at h2
    · split at h2
      · exact hs2 s2 h2
      · exact hs1 s2 h2
    · cases h2
  · exact hs2 s2 h2

/-- An entry put into the details table through one body is read through every
body that holds the same `details` pointer. -/
theorem detailsFind_detailsInsert (f src : VContainerData) (id : quint32) (detail : VDetail)
    (w w2 : World) (hp : f.details = src.details)
    (hi : detailsInsert f id detail w = some w2) :
    detailsFind src id w2 = some (some detail) := by
  unfold detailsInsert at hi
  unfold detailsFind
  rw [← hp]
  cases ha : f.details with
  | none => rw [ha] at hi; cases hi
  | some a =>
    rw [ha] at hi
    simp only at hi ⊢
    cases ht : w.detailTables.find a with
    | none => rw [ht] at hi; cases hi
    | some t =>
      rw [ht] at hi
      cases hi
      simp [QHash.find_insert_self]

/-- With a non-null variable, and no null handle bound under the name,
`AddVariable` returns or throws: the process goes on in some state. -/
theorem AddVariable_state_some (name : QString) (v : VInternalVariable) (s : State)
    (b : VContainerData) (hb : constData s = some b)
    (hnn : b.variables_.find name ≠ some none) :
    ∃ s2, (VContainer.AddVariable name (some v) s).state = some s2 := by
  obtain ⟨d1, s1, h1, hc, hr, -, hv, -⟩ := data_spec s b hb
  rw [AddVariable_after_data name (some v) s s1 d1 h1 hc hr, hv]
  cases hf : b.variables_.find name with
  | none =>
    have hn : b.variables_.contains name = false := by simp [QHash.contains, hf]
    exact ⟨committed name (some v) d1 s1, by simp [hn, Outcome.state]⟩
  | some p =>
    cases p with
    | none => exact absurd hf hnn
    | some stored =>
      rw [contains_of_find hf, value_of_find none hf]
      by_cases ht : stored.GetType = v.GetType
      · exact ⟨committed name (some v) d1 s1, by simp [ht, Outcome.state]⟩
      · exact ⟨s1, by simp [ht, Outcome.state]⟩

/-- The copy of a container points to the body of the original, counted once more. -/
theorem copy_eq (c : VContainer) (w : World) (b : VContainerData)
    (hb : w.bodies.find c.d = some b) :
    VContainer.copy c w = some ({ d := c.d },
      { w with bodies := w.bodies.insert c.d { b with ref := b.ref + 1 } }) := by
  simp [VContainer.copy, hb]

/-- Membership in a set after `insert`. -/
theorem QSet.mem_insert (q : QSet) (n x : QString) : x ∈ QSet.insert q n ↔ x = n ∨ x ∈ q := by
  unfold QSet.insert
  split
  · next h =>
    constructor
    · exact fun hx => Or.inr hx
    · rintro (rfl | hx)
      · exact h
      · exact hx
  · exact List.mem_cons

/-- The three ways `AddVariable` ends on a live body: it commits the binding,
it throws the mismatch error in the state its first `d->` left, or it
dereferences a null pointer.  The state `s1` of the first `d->` has the maps of
the body before, and is the state before when the body was not shared. -/
theorem AddVariable_outcome (name : QString) (var : Option VInternalVariable) (s : State)
    (b : VContainerData) (hb : constData s = some b) :
    ∃ d1 s1, constData s1 = some d1 ∧ d1.gObjects = b.gObjects ∧
      d1.variables_ = b.variables_ ∧ d1.details = b.details ∧
      s1.2.uniqueNames = s.2.uniqueNames ∧ s1.2._id = s.2._id ∧ (b.ref = 1 → s1 = s) ∧
      (VContainer.AddVariable name var s = .ok () (committed name var d1 s1) ∨
        (VContainer.AddVariable name var s =
            .thrown (.VExceptionBadId msgMismatch (.inr name)) s1 ∧
          ∃ stored v, b.variables_.find name = some (some stored) ∧ var = some v ∧
            stored.GetType ≠ v.GetType) ∨
        (VContainer.AddVariable name var s = .undefined ∧
          (b.variables_.find name = some none ∨
            (var = none ∧ b.variables_.contains name = true)))) := by
  obtain ⟨d1, s1, h1, hc, hr, hg, hv, hdt, -, -, hu, hid, -, -, hone, -⟩ := data_spec s b hb
  refine ⟨d1, s1, hc, hg, hv, hdt, hu, hid, fun h => (hone h).1, ?_⟩
  rw [AddVariable_after_data name var s s1 d1 h1 hc hr, hv]
  cases hf : b.variables_.find name with
  | none =>
    have hn : b.variables_.contains name = false := by simp [QHash.contains, hf]
    left
    simp [hn]
  | some p =>
    rw [contains_of_find hf, value_of_find none hf]
    cases p with
    | none => right; right; exact ⟨by simp, Or.inl rfl⟩
    | some stored =>
      cases var with
      | none => right; right; exact ⟨by simp, Or.inr ⟨rfl, rfl⟩⟩
      | some v =>
        by_cases ht : stored.GetType = v.GetType
        · left
          simp [ht]
        · right; left
          exact ⟨by simp [ht], stored, v, rfl, rfl, ht⟩

/-- Past the check of the name, a variable of a class convertible to `T` is
handed out as it is stored. -/
theorem GetVariable_found (isA : ClassName → ClassName → Bool) (asserts : Bool)
    (T : ClassName) (name : QString) (s : State) (d : VContainerData) (g : VInternalVariable)
    (h1 : SCASSERT asserts (name.isEmpty == false) = true) (hd : constData s = some d)
    (hg : d.variables_.find name = some (some g)) (hT : isA g.dynClass T = true) :
    VContainer.GetVariable isA asserts T name s = .ok (some g) s := by
  rw [GetVariable_present isA asserts T name s d h1 hd (contains_of_find hg),
    value_of_find none hg]
  simp [qSharedPointerDynamicCast, hT, SCASSERT, QSharedPointer.isNull]

/-- A hash without null handles has none after a non-null handle is inserted. -/
theorem nonnull_insert {α : Type} (m : QHash QString (QSharedPointer α)) (name : QString) (v : α)
    (hinv : ∀ n, m.find n ≠ some none) : ∀ n, (m.insert name (some v)).find n ≠ some none := by
  intro n
  by_cases hn : n = name
  · rw [hn, QHash.find_insert_self]
    simp
  · rw [QHash.find_insert_ne _ _ hn]
    exact hinv n

/-! ## Facts about the identity allocator -/

/-- Below `UINT_MAX` the increment does not wrap. -/
theorem getNextId_lt (w : World) (h : w._id < UINT_MAX) :
    (VContainer.getNextId w).1 = w._id + 1 ∧ (VContainer.getNextId w).2._id = w._id + 1 := by
  have hm : UINT_MAX = 4294967295 := by decide
  have h0 : (w._id : Nat) < 4294967295 := hm ▸ h
  have h1 : (w._id + 1) % 2 ^ 32 = w._id + 1 := by
    apply Nat.mod_eq_of_lt
    have h2 : (2 : Nat) ^ 32 = 4294967296 := by norm_num
    rw [h2]
    exact Nat.succ_lt_succ h0
  exact ⟨h1, h1⟩

/-- The counter after `UpdateId`. -/
theorem UpdateId_id (n : quint32) (w : World) : (VContainer.UpdateId n w)._id = max w._id n := by
  unfold VContainer.UpdateId
  split
  · next h => simp only [max_eq_right (le_of_lt h)]
  · next h => rw [max_eq_left (not_lt.mp h)]

/-- Every id a run without wrap returns is above every id the run showed before
it, and above the counter the run started from. -/
theorem runIdCalls_above (calls : List IdCall) :
    ∀ w : World, noWrap calls w = true →
      (runIdCalls calls w).1.Pairwise (fun e1 e2 => ∀ r, e2 = .returned r → e1.id < r) ∧
        ∀ e ∈ (runIdCalls calls w).1, ∀ r, e = .returned r → w._id < r := by
  induction calls with
  | nil =>
    intro w _
    simp [runIdCalls]
  | cons c cs ih =>
    intro w h
    cases c with
    | getId => exact ih w h
    | getNextId =>
      simp only [noWrap, Bool.and_eq_true, decide_eq_true_eq] at h
      obtain ⟨h1, h2⟩ := getNextId_lt w h.1
      obtain ⟨ihp, iha⟩ := ih _ h.2
      simp only [runIdCalls, List.pairwise_cons, List.mem_cons]
      refine ⟨⟨?_, ihp⟩, ?_⟩
      · intro e he r hr
        have h3 := iha e he r hr
        show (VContainer.getNextId w).1 < r
        rw [h1, ← h2]
        exact h3
      · rintro e (rfl | he) r hr
        · cases hr
          rw [h1]
          exact Nat.lt_succ_self _
        · have h3 := iha e he r hr
          rw [h2] at h3
          exact Nat.lt_of_succ_lt h3
    | UpdateId n =>
      simp only [noWrap, Bool.and_eq_true, decide_eq_true_eq] at h
      obtain ⟨ihp, iha⟩ := ih _ h.2
      have hid := UpdateId_id n w
      simp only [runIdCalls, List.pairwise_cons, List.mem_cons]
      refine ⟨⟨?_, ihp⟩, ?_⟩
      · intro e he r hr
        have h3 := iha e he r hr
        rw [hid] at h3
        exact lt_of_le_of_lt (le_max_right w._id n) h3
      · rintro e (rfl | he) r hr
        · cases hr
        · have h3 := iha e he r hr
          rw [hid] at h3
          exact lt_of_le_of_lt (le_max_left w._id n) h3

theorem mem_returnedIds {es : List IdEvent} {r : quint32} (h : r ∈ returnedIds es) :
    IdEvent.returned r ∈ es := by
  induction es with
  | nil => cases h
  | cons e es ih =>
    cases e with
    | returned id =>
      simp only [returnedIds, List.mem_cons] at h
      rcases h with rfl | h
      · exact List.mem_cons_self _ _
      · exact List.mem_cons_of_mem _ (ih h)
    | passed id =>
      simp only [returnedIds] at h
      exact List.mem_cons_of_mem _ (ih h)

/-- When every returned id is above the ids shown before it, the returned ids
increase. -/
theorem returnedIds_increase (es : List IdEvent)
    (h : es.Pairwise (fun e1 e2 => ∀ r, e2 = .returned r → e1.id < r)) :
    (returnedIds es).Pairwise (fun a b => a < b) := by
  induction es with
  | nil => simp [returnedIds]
  | cons e es ih =>
    rw [List.pairwise_cons] at h
    cases e with
    | returned id =>
      simp only [returnedIds, List.pairwise_cons]
      exact ⟨fun r hr => h.1 _ (mem_returnedIds hr) r rfl, ih h.2⟩
    | passed id =>
      simp only [returnedIds]
      exact ih h.2

/-! ## The claims -/

/-- C1 (the code departs from it).  When the object stored under `id` cannot be
cast to `T`, `GeometricObject<T>(id)` raises no error at all: the null result of
the cast meets `SCASSERT` only, so the call aborts the process when assertions
are compiled in and returns the null handle when they are compiled out.  The
handler that would raise "Can't cast object" waits for `std::bad_alloc`, which
the cast never throws. -/
theorem GeometricObject_mismatch (isA : ClassName → ClassName → Bool) (asserts : Bool)
    (T : ClassName) (id : quint32) (s : State) (d : VContainerData) (g : VGObject)
    (hd : constData s = some d) (hg : d.gObjects.find id = some (some g))
    (hT : isA g.dynClass T = false) :
    VContainer.GeometricObject isA asserts T id s = if asserts then .aborted else .ok none s := by
  rw [GeometricObject_present isA asserts T id s d hd (contains_of_find hg),
    value_of_find none hg]
  cases asserts <;>
    simp [qSharedPointerDynamicCast, hT, SCASSERT, QSharedPointer.isNull]

/-- The failing input of C1: the sample container holds a point under id 1, and
an arc is asked for. -/
theorem GeometricObject_mismatch_witness :
    VContainer.GeometricObject sampleIsA true "VArc" 1 (sampleContainer, sampleWorld)
        = .aborted ∧
      VContainer.GeometricObject sampleIsA false "VArc" 1 (sampleContainer, sampleWorld)
        = .ok none (sampleContainer, sampleWorld) :=
  ⟨GeometricObject_mismatch sampleIsA true "VArc" 1 (sampleContainer, sampleWorld) sampleData
      samplePoint (by decide) (by decide) (by decide),
    GeometricObject_mismatch sampleIsA false "VArc" 1 (sampleContainer, sampleWorld) sampleData
      samplePoint (by decide) (by decide) (by decide)⟩

/-- C2.  `GeometricObject<T>(id)` throws `VExceptionBadId` with the text
"Can't find object" exactly when `id` is not a key of the objects map, and on
an absent id the outcome is the same for every requested type. -/
theorem GeometricObject_notFound_iff (isA : ClassName → ClassName → Bool) (asserts : Bool)
    (T : ClassName) (id : quint32) (s : State) (d : VContainerData)
    (hd : constData s = some d) :
    ((∃ key s1, VContainer.GeometricObject isA asserts T id s =
          .thrown (.VExceptionBadId msgFind key) s1) ↔ d.gObjects.contains id = false) ∧
      (d.gObjects.contains id = false →
        ∀ (isA2 : ClassName → ClassName → Bool) (asserts2 : Bool) (T2 : ClassName),
          VContainer.GeometricObject isA2 asserts2 T2 id s =
            .thrown (.VExceptionBadId msgFind (.inl id)) s) := by
  refine ⟨⟨?_, ?_⟩, ?_⟩
  · rintro ⟨key, s1, h⟩
    by_contra hc
    have hc1 : d.gObjects.contains id = true := by simpa using hc
    rw [GeometricObject_present isA asserts T id s d hd hc1] at h
    split at h <;> cases h
  · intro hc
    exact ⟨.inl id, s, GeometricObject_absent isA asserts T id s d hd hc⟩
  · intro hc isA2 asserts2 T2
    exact GeometricObject_absent isA2 asserts2 T2 id s d hd hc

/-- The sample container has no object under id 9 and has one under id 1. -/
theorem GeometricObject_notFound_iff_witness :
    ((∃ key s1, VContainer.GeometricObject sampleIsA true "VArc" 9
          (sampleContainer, sampleWorld) = .thrown (.VExceptionBadId msgFind key) s1) ↔
        sampleData.gObjects.contains 9 = false) ∧
      (sampleData.gObjects.contains 9 = false →
        ∀ (isA2 : ClassName → ClassName → Bool) (asserts2 : Bool) (T2 : ClassName),
          VContainer.GeometricObject isA2 asserts2 T2 9 (sampleContainer, sampleWorld) =
            .thrown (.VExceptionBadId msgFind (.inl 9)) (sampleContainer, sampleWorld)) :=
  GeometricObject_notFound_iff sampleIsA true "VArc" 9 (sampleContainer, sampleWorld) sampleData
    (by decide)

/-- C3.  When `id` is bound to an object whose dynamic class is `T` or derives
from `T`, `GeometricObject<T>(id)` returns the handle the map holds under `id`
(the same pointee, not a copy) and leaves the container and the world as they
were. -/
theorem GeometricObject_found (isA : ClassName → ClassName → Bool) (asserts : Bool)
    (T : ClassName) (id : quint32) (s : State) (d : VContainerData) (g : VGObject)
    (hd : constData s = some d) (hg : d.gObjects.find id = some (some g))
    (hT : isA g.dynClass T = true) :
    VContainer.GeometricObject isA asserts T id s = .ok (d.gObjects.value id none) s ∧
      d.gObjects.value id none = some g := by
  rw [GeometricObject_present isA asserts T id s d hd (contains_of_find hg),
    value_of_find none hg]
  simp [qSharedPointerDynamicCast, hT, SCASSERT, QSharedPointer.isNull]

/-- The sample container holds an arc under id 2; it is handed out as an arc
and as a curve. -/
theorem GeometricObject_found_witness :
    (VContainer.GeometricObject sampleIsA true "VAbstractCurve" 2 (sampleContainer, sampleWorld)
        = .ok (sampleData.gObjects.value 2 none) (sampleContainer, sampleWorld) ∧
      sampleData.gObjects.value 2 none = some sampleArc) ∧
      sampleArc.addr = 101 :=
  ⟨GeometricObject_found sampleIsA true "VAbstractCurve" 2 (sampleContainer, sampleWorld)
      sampleData sampleArc (by decide) (by decide) (by decide), by decide⟩

/-- C4.  When `name` is bound to a variable, `AddVariable(name, v)` throws
`VExceptionBadId` "Can't find object. Type mismatch." if the category tag of
the bound variable differs from the tag of `v`, and returns normally if the
tags agree: the two tags alone decide, whatever the classes of the two
variables. -/
theorem AddVariable_tags_decide (name : QString) (stored v : VInternalVariable) (s : State)
    (d : VContainerData) (hd : constData s = some d)
    (hb : d.variables_.find name = some (some stored)) :
    (VContainer.AddVariable name (some v) s).result =
      if stored.GetType = v.GetType then .value ()
      else .thrown (.VExceptionBadId msgMismatch (.inr name)) := by
  obtain ⟨d1, s1, h1, hc, hr, -, hv, -⟩ := data_spec s d hd
  rw [AddVariable_after_data name (some v) s s1 d1 h1 hc hr, hv,
    contains_of_find hb, value_of_find none hb]
  simp only [if_true]
  split <;> rfl

/-- In the sample container `bust` is a measurement (tag 0): an increment (tag 1)
is refused under that name, a second measurement is accepted. -/
theorem AddVariable_tags_decide_witness :
    (VContainer.AddVariable "bust" (some sampleIncrement) (sampleContainer, sampleWorld)).result
        = .thrown (.VExceptionBadId msgMismatch (.inr "bust")) ∧
      (VContainer.AddVariable "bust" (some sampleMeasurement2)
        (sampleContainer, sampleWorld)).result = .value () :=
  ⟨AddVariable_tags_decide "bust" sampleMeasurement sampleIncrement (sampleContainer, sampleWorld)
      sampleData (by decide) (by decide),
    AddVariable_tags_decide "bust" sampleMeasurement sampleMeasurement2
      (sampleContainer, sampleWorld) sampleData (by decide) (by decide)⟩

/-- C5.  When `name` is unbound, or bound to a variable with the category tag of
`v`, `AddVariable(name, v)` returns normally; afterwards the variables map of
the container has exactly one entry for `name`, it holds `v`, every other name
is bound as before, and the map has one entry more if `name` was unbound and as
many as before otherwise. -/
theorem AddVariable_binds (name : QString) (v : VInternalVariable) (s : State)
    (d : VContainerData) (hd : constData s = some d)
    (hb : d.variables_.find name = none ∨
      ∃ stored, d.variables_.find name = some (some stored) ∧ stored.GetType = v.GetType) :
    ∃ s2 d2, VContainer.AddVariable name (some v) s = .ok () s2 ∧ constData s2 = some d2 ∧
      d2.variables_.find name = some (some v) ∧ d2.variables_.keys.count name = 1 ∧
      (∀ n, n ≠ name → d2.variables_.find n = d.variables_.find n) ∧
      d2.variables_.size =
        if d.variables_.contains name then d.variables_.size else d.variables_.size + 1 := by
  obtain ⟨d1, s1, h1, hc, hr, -, hv, -⟩ := data_spec s d hd
  have hfind : ({ d1 with variables_ := d1.variables_.insert name (some v) } :
      VContainerData).variables_.find name = some (some v) := QHash.find_insert_self _ _ _
  refine ⟨committed name (some v) d1 s1, _, ?_, constData_committed _ _ _ _, hfind,
    QHash.count_keys_of_find hfind, ?_, ?_⟩
  · rw [AddVariable_after_data name (some v) s s1 d1 h1 hc hr, hv]
    rcases hb with hb | ⟨stored, hb, ht⟩
    · have hn : d.variables_.contains name = false := by simp [QHash.contains, hb]
      simp [hn]
    · rw [contains_of_find hb, value_of_find none hb]
      simp [ht]
  · intro n hn
    show (d1.variables_.insert name (some v)).find n = d.variables_.find n
    rw [hv]
    exact QHash.find_insert_ne _ _ hn
  · show (d1.variables_.insert name (some v)).size = _
    rw [hv]
    exact QHash.size_insert _ _ _

/-- In the sample container `waist` is unbound and `bust` is a measurement: an
increment is added under `waist`, a second measurement replaces `bust`. -/
theorem AddVariable_binds_witness :
    (∃ s2 d2, VContainer.AddVariable "waist" (some sampleIncrement)
        (sampleContainer, sampleWorld) = .ok () s2 ∧ constData s2 = some d2 ∧
      d2.variables_.find "waist" = some (some sampleIncrement) ∧
      d2.variables_.keys.count "waist" = 1 ∧
      (∀ n, n ≠ "waist" → d2.variables_.find n = sampleData.variables_.find n) ∧
      d2.variables_.size = if sampleData.variables_.contains "waist"
        then sampleData.variables_.size else sampleData.variables_.size + 1) ∧
    (∃ s2 d2, VContainer.AddVariable "bust" (some sampleMeasurement2)
        (sampleContainer, sampleWorld) = .ok () s2 ∧ constData s2 = some d2 ∧
      d2.variables_.find "bust" = some (some sampleMeasurement2) ∧
      d2.variables_.keys.count "bust" = 1 ∧
      (∀ n, n ≠ "bust" → d2.variables_.find n = sampleData.variables_.find n) ∧
      d2.variables_.size = if sampleData.variables_.contains "bust"
        then sampleData.variables_.size else sampleData.variables_.size + 1) :=
  ⟨AddVariable_binds "waist" sampleIncrement (sampleContainer, sampleWorld) sampleData
      (by decide) (Or.inl (by decide)),
    AddVariable_binds "bust" sampleMeasurement2 (sampleContainer, sampleWorld) sampleData
      (by decide) (Or.inr ⟨sampleMeasurement, by decide, by decide⟩)⟩

/-- C6 (the code departs from it).  The body a mutating call forks from a
shared body holds the objects map, the variables map, the details pointer, the
translation provider and the unit of the body it was forked from, but its
`pieces` pointer is null: the copy constructor does not name `pieces` in its
initialiser list. -/
theorem fork_drops_pieces (s : State) (b : VContainerData) (hb : constData s = some b)
    (hr : b.ref ≠ 1) :
    ∃ f s1, data s = some (f, s1) ∧ constData s1 = some f ∧
      f.gObjects = b.gObjects ∧ f.variables_ = b.variables_ ∧ f.details = b.details ∧
      f.trVars = b.trVars ∧ f.patternUnit = b.patternUnit ∧ f.pieces = none := by
  obtain ⟨d1, s1, h1, hc, -, hg, hv, hdt, htr, hu, -, -, -, -, -, h2⟩ := data_spec s b hb
  exact ⟨d1, s1, h1, hc, hg, hv, hdt, htr, hu, (h2 hr).2.2⟩

/-- The failing input of C6: the sample body, shared by two containers, has a
pieces table (with piece 5); the body forked from it has none. -/
theorem fork_drops_pieces_witness :
    (sampleSharedData.pieces = some 1 ∧
      (sampleSharedWorld.pieceTables.find 1).map (fun t => t.contains 5) = some true) ∧
    ∃ f s1, data (sampleContainer, sampleSharedWorld) = some (f, s1) ∧ constData s1 = some f ∧
      f.gObjects = sampleSharedData.gObjects ∧ f.variables_ = sampleSharedData.variables_ ∧
      f.details = sampleSharedData.details ∧ f.trVars = sampleSharedData.trVars ∧
      f.patternUnit = sampleSharedData.patternUnit ∧ f.pieces = none :=
  ⟨by decide, fork_drops_pieces (sampleContainer, sampleSharedWorld) sampleSharedData
    (by decide) (by decide)⟩

/-- C7, as stated, fails: the body forked from the shared sample body lives in
a cell of its own, but its `details` pointer is the pointer of the source, and
a detail inserted through the fork under id 9 (absent before) is read through
the source. -/
theorem fork_shares_details :
    ∃ f s1 src, data (sampleContainer, sampleSharedWorld) = some (f, s1) ∧
      constData (sampleContainer, s1.2) = some src ∧ s1.1.d ≠ sampleContainer.d ∧
      f.details = src.details ∧ src.details = some 1 ∧
      detailsFind src 9 s1.2 = some none ∧
      (detailsInsert f 9 { nodes := [1, 2] } s1.2).bind (detailsFind src 9) =
        some (some { nodes := [1, 2] }) := by
  refine ⟨_, _, sampleData,
    data_shared (sampleContainer, sampleSharedWorld) sampleSharedData (by decide) (by decide),
    ?_, ?_, ?_, ?_, ?_, ?_⟩ <;> decide

/-- C7, amended.  The body a mutating call forks from a shared body lives in a
cell of its own and starts with the objects and variables maps of the source;
replacing the fork (so any insertion, replacement or removal in its maps)
leaves the source body as it was, and replacing the source leaves the fork as
it was.  The `details` pointer of the fork is the pointer of the source, so a
detail inserted through the fork is read through the source. -/
theorem fork_own_maps_shared_details (s : State) (b : VContainerData)
    (hb : constData s = some b) (hr : b.ref ≠ 1) :
    ∃ f s1 src, data s = some (f, s1) ∧ constData s1 = some f ∧ s1.1.d ≠ s.1.d ∧
      constData (s.1, s1.2) = some src ∧
      src.gObjects = b.gObjects ∧ src.variables_ = b.variables_ ∧
      f.gObjects = b.gObjects ∧ f.variables_ = b.variables_ ∧
      (∀ f2, constData (s.1, (setData s1 f2).2) = some src) ∧
      (∀ src2, constData (s1.1, (setData (s.1, s1.2) src2).2) = some f) ∧
      f.details = src.details ∧
      (∀ id detail w2, detailsInsert f id detail s1.2 = some w2 →
        detailsFind src id w2 = some (some detail)) := by
  have hne : s.2.bodies.fresh ≠ s.1.d := fun h => QHash.ne_fresh_of_find hb h.symm
  refine ⟨_, _, { b with ref := b.ref - 1 }, data_shared s b hb hr, ?_, hne, ?_, rfl, rfl,
    rfl, rfl, ?_, ?_, rfl, ?_⟩
  · simp [constData, QHash.find_insert_ne _ _ hne, QHash.find_insert_self]
  · simp [constData, QHash.find_insert_self]
  · intro f2
    simp [constData, setData, QHash.find_insert_ne _ _ (Ne.symm hne), QHash.find_insert_self]
  · intro src2
    simp [constData, setData, QHash.find_insert_ne _ _ hne, QHash.find_insert_self]
  · intro id detail w2 hi
    exact detailsFind_detailsInsert _ _ id detail _ w2 rfl hi

/-- The shared sample body is forked. -/
theorem fork_own_maps_shared_details_witness :
    ∃ f s1 src, data (sampleContainer, sampleSharedWorld) = some (f, s1) ∧
      constData s1 = some f ∧ s1.1.d ≠ (sampleContainer, sampleSharedWorld).1.d ∧
      constData ((sampleContainer, sampleSharedWorld).1, s1.2) = some src ∧
      src.gObjects = sampleSharedData.gObjects ∧ src.variables_ = sampleSharedData.variables_ ∧
      f.gObjects = sampleSharedData.gObjects ∧ f.variables_ = sampleSharedData.variables_ ∧
      (∀ f2, constData ((sampleContainer, sampleSharedWorld).1, (setData s1 f2).2) = some src) ∧
      (∀ src2, constData (s1.1,
        (setData ((sampleContainer, sampleSharedWorld).1, s1.2) src2).2) = some f) ∧
      f.details = src.details ∧
      (∀ id detail w2, detailsInsert f id detail s1.2 = some w2 →
        detailsFind src id w2 = some (some detail)) :=
  fork_own_maps_shared_details (sampleContainer, sampleSharedWorld) sampleSharedData
    (by decide) (by decide)

/-- C8.  Let `c2` be a copy of the container `c`.  Whatever state
`AddVariable(name, var)` on `c2` leaves (after a normal return or after the
mismatch error), every `GeometricObject` and `GetVariable` lookup on `c` gives
there the result it gave before the call; the same holds for lookups on `c2`
after `AddVariable` on `c`.  With a non-null `var`, and no null handle bound
under `name`, both calls do leave a state. -/
theorem copy_isolation (isA : ClassName → ClassName → Bool) (asserts : Bool) (name : QString)
    (var : Option VInternalVariable) (c : VContainer) (w : World) (b : VContainerData)
    (hb : w.bodies.find c.d = some b) (hr : 0 < b.ref) :
    ∃ c2 w1, VContainer.copy c w = some (c2, w1) ∧
      (∀ s2, (VContainer.AddVariable name var (c2, w1)).state = some s2 →
        ∀ T id n,
          (VContainer.GeometricObject isA asserts T id (c, s2.2)).result =
            (VContainer.GeometricObject isA asserts T id (c, w1)).result ∧
          (VContainer.GetVariable isA asserts T n (c, s2.2)).result =
            (VContainer.GetVariable isA asserts T n (c, w1)).result) ∧
      (∀ s2, (VContainer.AddVariable name var (c, w1)).state = some s2 →
        ∀ T id n,
          (VContainer.GeometricObject isA asserts T id (c2, s2.2)).result =
            (VContainer.GeometricObject isA asserts T id (c2, w1)).result ∧
          (VContainer.GetVariable isA asserts T n (c2, s2.2)).result =
            (VContainer.GetVariable isA asserts T n (c2, w1)).result) ∧
      (∀ v, var = some v → b.variables_.find name ≠ some none →
        (∃ s2, (VContainer.AddVariable name var (c2, w1)).state = some s2) ∧
        (∃ s2, (VContainer.AddVariable name var (c, w1)).state = some s2)) := by
  have hshared : ∀ k : VContainer, k.d = c.d →
      constData (k, ({ w with bodies := w.bodies.insert c.d { b with ref := b.ref + 1 } } : World))
        = some { b with ref := b.ref + 1 } := by
    intro k hk
    simp [constData, hk, QHash.find_insert_self]
  have hr1 : ({ b with ref := b.ref + 1 } : VContainerData).ref ≠ 1 := by
    show b.ref + 1 ≠ 1
    omega
  have key : ∀ k k2 : VContainer, k.d = c.d → k2.d = c.d → ∀ s2,
      (VContainer.AddVariable name var
        (k, ({ w with bodies := w.bodies.insert c.d { b with ref := b.ref + 1 } } : World))).state
          = some s2 →
      ∀ T id n,
        (VContainer.GeometricObject isA asserts T id (k2, s2.2)).result =
          (VContainer.GeometricObject isA asserts T id
            (k2, ({ w with bodies := w.bodies.insert c.d { b with ref := b.ref + 1 } } : World))).result ∧
        (VContainer.GetVariable isA asserts T n (k2, s2.2)).result =
          (VContainer.GetVariable isA asserts T n
            (k2, ({ w with bodies := w.bodies.insert c.d { b with ref := b.ref + 1 } } : World))).result := by
    intro k k2 hk hk2 s2 h2 T id n
    obtain ⟨src, hsrc, hg, hv⟩ := AddVariable_frame name var _ s2 _ (hshared k hk) hr1 h2
    have hc2 : constData (k2, s2.2) = some src := by
      show s2.2.bodies.find k2.d = some src
      rw [hk2, ← hk]
      exact hsrc
    exact ⟨GeometricObject_result_congr isA asserts T id _ _ _ _ hc2 (hshared k2 hk2) hg,
      GetVariable_result_congr isA asserts T n _ _ _ _ hc2 (hshared k2 hk2) hv⟩
  refine ⟨_, _, copy_eq c w b hb, key _ c rfl rfl, key c _ rfl rfl, ?_⟩
  intro v hv hnn
  subst hv
  exact ⟨AddVariable_state_some name v _ _ (hshared _ rfl) hnn,
    AddVariable_state_some name v _ _ (hshared c rfl) hnn⟩

/-- The sample container is copied, and `waist` is added to the copy or to the
original. -/
theorem copy_isolation_witness :
    ∃ c2 w1, VContainer.copy sampleContainer sampleWorld = some (c2, w1) ∧
      (∀ s2, (VContainer.AddVariable "waist" (some sampleIncrement) (c2, w1)).state = some s2 →
        ∀ T id n,
          (VContainer.GeometricObject sampleIsA true T id (sampleContainer, s2.2)).result =
            (VContainer.GeometricObject sampleIsA true T id (sampleContainer, w1)).result ∧
          (VContainer.GetVariable sampleIsA true T n (sampleContainer, s2.2)).result =
            (VContainer.GetVariable sampleIsA true T n (sampleContainer, w1)).result) ∧
      (∀ s2, (VContainer.AddVariable "waist" (some sampleIncrement) (sampleContainer, w1)).state
          = some s2 →
        ∀ T id n,
          (VContainer.GeometricObject sampleIsA true T id (c2, s2.2)).result =
            (VContainer.GeometricObject sampleIsA true T id (c2, w1)).result ∧
          (VContainer.GetVariable sampleIsA true T n (c2, s2.2)).result =
            (VContainer.GetVariable sampleIsA true T n (c2, w1)).result) ∧
      (∀ v, some sampleIncrement = some v → sampleData.variables_.find "waist" ≠ some none →
        (∃ s2, (VContainer.AddVariable "waist" (some sampleIncrement) (c2, w1)).state = some s2) ∧
        (∃ s2, (VContainer.AddVariable "waist" (some sampleIncrement)
          (sampleContainer, w1)).state = some s2)) :=
  copy_isolation sampleIsA true "waist" (some sampleIncrement) sampleContainer sampleWorld
    sampleData (by decide) (by decide)

/-- C9 (the code departs from it).  When the variable bound to a non-empty
`name` cannot be cast to `T`, `GetVariable<T>(name)` raises no error: the call
aborts the process when assertions are compiled in and returns the null handle
when they are compiled out.  The handler that would raise "Can't cast object"
waits for `std::bad_alloc`, which the cast never throws. -/
theorem GetVariable_mismatch (isA : ClassName → ClassName → Bool) (asserts : Bool)
    (T : ClassName) (name : QString) (s : State) (d : VContainerData) (g : VInternalVariable)
    (hn : name.isEmpty = false) (hd : constData s = some d)
    (hg : d.variables_.find name = some (some g)) (hT : isA g.dynClass T = false) :
    VContainer.GetVariable isA asserts T name s = if asserts then .aborted else .ok none s := by
  rw [GetVariable_present isA asserts T name s d (SCASSERT_nonempty asserts name hn) hd
    (contains_of_find hg), value_of_find none hg]
  cases asserts <;>
    simp [qSharedPointerDynamicCast, hT, SCASSERT, QSharedPointer.isNull]

/-- The failing input of C9: in the sample container `bust` is a measurement,
and an increment is asked for. -/
theorem GetVariable_mismatch_witness :
    VContainer.GetVariable sampleIsA true "VIncrement" "bust" (sampleContainer, sampleWorld)
        = .aborted ∧
      VContainer.GetVariable sampleIsA false "VIncrement" "bust" (sampleContainer, sampleWorld)
        = .ok none (sampleContainer, sampleWorld) :=
  ⟨GetVariable_mismatch sampleIsA true "VIncrement" "bust" (sampleContainer, sampleWorld)
      sampleData sampleMeasurement (by decide) (by decide) (by decide) (by decide),
    GetVariable_mismatch sampleIsA false "VIncrement" "bust" (sampleContainer, sampleWorld)
      sampleData sampleMeasurement (by decide) (by decide) (by decide) (by decide)⟩

/-- C10, as stated, fails: on the sample container `GetVariable<T>("")` aborts
the process when assertions are compiled in; when they are compiled out it
throws the error of a failed lookup, and once a variable has been added under
the empty name it returns that variable. -/
theorem empty_name_meets_no_error :
    VContainer.GetVariable sampleIsA true "VMeasurement" "" (sampleContainer, sampleWorld)
        = .aborted ∧
      VContainer.GetVariable sampleIsA false "VMeasurement" "" (sampleContainer, sampleWorld)
        = .thrown (.VExceptionBadId msgFind (.inr "")) (sampleContainer, sampleWorld) ∧
      (VContainer.AddVariable "" (some sampleMeasurement2)
          (sampleContainer, sampleWorld)).state.map
        (fun s2 => (VContainer.GetVariable sampleIsA false "VMeasurement" "" s2).result)
        = some (.value (some sampleMeasurement2)) := by
  decide

/-- C10, amended.  `GetVariable<T>("")` raises no error of its own: with
assertions compiled in it aborts the process, whatever the container holds;
with assertions compiled out the check of the name is skipped and the call goes
on as for any name, throwing the error of a failed lookup when the empty name is
unbound and returning the stored handle when it is bound to a variable of a
class convertible to `T`. -/
theorem GetVariable_empty_name (isA : ClassName → ClassName → Bool) (T : ClassName)
    (s : State) :
    VContainer.GetVariable isA true T "" s = .aborted ∧
      (∀ d, constData s = some d →
        (d.variables_.contains "" = false →
          VContainer.GetVariable isA false T "" s =
            .thrown (.VExceptionBadId msgFind (.inr "")) s) ∧
        (∀ g, d.variables_.find "" = some (some g) → isA g.dynClass T = true →
          VContainer.GetVariable isA false T "" s = .ok (some g) s)) := by
  refine ⟨GetVariable_rejected isA true T "" s (by decide), ?_⟩
  intro d hd
  refine ⟨fun hc => GetVariable_absent isA false T "" s d (by decide) hd hc, ?_⟩
  intro g hg hT
  rw [GetVariable_present isA false T "" s d (by decide) hd (contains_of_find hg),
    value_of_find none hg]
  simp [qSharedPointerDynamicCast, hT, SCASSERT]

/-- C11.  Whatever state `AddVariable(name, var)` leaves, every name of the
registry before the call is in the registry after it; after a normal return
the registry holds exactly the names it held before and `name`; after the
mismatch error it is the registry before.  The registry is a static member, so
this holds for whichever container receives the call. -/
theorem registry_append_only (name : QString) (var : Option VInternalVariable) (s : State)
    (b : VContainerData) (hb : constData s = some b) :
    (∀ s2, (VContainer.AddVariable name var s).state = some s2 →
        ∀ x, x ∈ s.2.uniqueNames → x ∈ s2.2.uniqueNames) ∧
      (∀ s2, VContainer.AddVariable name var s = .ok () s2 →
        ∀ x, x ∈ s2.2.uniqueNames ↔ x = name ∨ x ∈ s.2.uniqueNames) ∧
      (∀ e s2, VContainer.AddVariable name var s = .thrown e s2 →
        s2.2.uniqueNames = s.2.uniqueNames) := by
  obtain ⟨d1, s1, -, -, -, -, hu, -, -, h⟩ := AddVariable_outcome name var s b hb
  have hcom : ∀ x, x ∈ (committed name var d1 s1).2.uniqueNames ↔
      x = name ∨ x ∈ s.2.uniqueNames := by
    intro x
    show x ∈ QSet.insert s1.2.uniqueNames name ↔ _
    rw [QSet.mem_insert, hu]
  rcases h with h | ⟨h, -⟩ | ⟨h, -⟩
  · rw [h]
    refine ⟨?_, ?_, ?_⟩
    · intro s2 h2 x hx
      cases h2
      exact (hcom x).mpr (Or.inr hx)
    · intro s2 h2 x
      cases h2
      exact hcom x
    · intro e s2 h2
      cases h2
  · rw [h]
    refine ⟨?_, ?_, ?_⟩
    · intro s2 h2 x hx
      cases h2
      rw [hu]
      exact hx
    · intro s2 h2
      cases h2
    · intro e s2 h2
      cases h2
      exact hu
  · rw [h]
    refine ⟨?_, ?_, ?_⟩
    · intro s2 h2
      cases h2
    · intro s2 h2
      cases h2
    · intro e s2 h2
      cases h2

/-- In the sample world the registry holds `bust`; adding `waist` returns
normally and the registry then holds both names. -/
theorem registry_append_only_witness :
    ((∀ s2, (VContainer.AddVariable "waist" (some sampleIncrement)
          (sampleContainer, sampleWorld)).state = some s2 →
        ∀ x, x ∈ (sampleContainer, sampleWorld).2.uniqueNames → x ∈ s2.2.uniqueNames) ∧
      (∀ s2, VContainer.AddVariable "waist" (some sampleIncrement)
          (sampleContainer, sampleWorld) = .ok () s2 →
        ∀ x, x ∈ s2.2.uniqueNames ↔
          x = "waist" ∨ x ∈ (sampleContainer, sampleWorld).2.uniqueNames) ∧
      (∀ e s2, VContainer.AddVariable "waist" (some sampleIncrement)
          (sampleContainer, sampleWorld) = .thrown e s2 →
        s2.2.uniqueNames = (sampleContainer, sampleWorld).2.uniqueNames)) ∧
    (VContainer.AddVariable "waist" (some sampleIncrement)
      (sampleContainer, sampleWorld)).state.map (fun s2 => s2.2.uniqueNames)
        = some ["waist", "bust"] :=
  ⟨registry_append_only "waist" (some sampleIncrement) (sampleContainer, sampleWorld)
    sampleData (by decide), by decide⟩

/-- C12, as stated, fails at the largest 32-bit value: there `getNextId` returns
0, and in the run `getNextId`, `UpdateId(4294967295)`, `getNextId`, `getNextId`
from counter 0 the id 1 is returned twice. -/
theorem ids_collide_after_wrap :
    (VContainer.getNextId { sampleWorld with _id := 4294967295 }).1 = 0 ∧
      returnedIds (runIdCalls [.getNextId, .UpdateId 4294967295, .getNextId, .getNextId]
        { sampleWorld with _id := 0 }).1 = [1, 0, 1] := by
  decide

/-- C12, amended.  Below the largest 32-bit value `getNextId` returns the
counter plus one and leaves the counter there.  In every run of `getId`,
`getNextId` and `UpdateId` calls in which no `getNextId` is issued with the
counter at the largest 32-bit value, the returned ids increase strictly, are
pairwise distinct, and each differs from every id the run returned or passed to
`UpdateId` before it. -/
theorem ids_increase_without_wrap (calls : List IdCall) (w : World)
    (h : noWrap calls w = true) :
    (∀ w2 : World, w2._id < UINT_MAX →
        (VContainer.getNextId w2).1 = w2._id + 1 ∧
          VContainer.getId (VContainer.getNextId w2).2 = w2._id + 1) ∧
      (returnedIds (runIdCalls calls w).1).Pairwise (fun a b => a < b) ∧
      (returnedIds (runIdCalls calls w).1).Nodup ∧
      (runIdCalls calls w).1.Pairwise (fun e1 e2 => ∀ r, e2 = .returned r → e1.id ≠ r) := by
  have hp := (runIdCalls_above calls w h).1
  have hinc := returnedIds_increase _ hp
  refine ⟨fun w2 h2 => getNextId_lt w2 h2, hinc, ?_, ?_⟩
  · exact hinc.imp (fun hab => Nat.ne_of_lt hab)
  · exact hp.imp (fun hab r hr => Nat.ne_of_lt (hab r hr))

/-- A run from counter 0 that stays far from the largest value: the ids
returned are 1 and 41. -/
theorem ids_increase_without_wrap_witness :
    ((∀ w2 : World, w2._id < UINT_MAX →
        (VContainer.getNextId w2).1 = w2._id + 1 ∧
          VContainer.getId (VContainer.getNextId w2).2 = w2._id + 1) ∧
      (returnedIds (runIdCalls [.getNextId, .UpdateId 40, .getId, .getNextId]
        { sampleWorld with _id := 0 }).1).Pairwise (fun a b => a < b) ∧
      (returnedIds (runIdCalls [.getNextId, .UpdateId 40, .getId, .getNextId]
        { sampleWorld with _id := 0 }).1).Nodup ∧
      (runIdCalls [.getNextId, .UpdateId 40, .getId, .getNextId]
        { sampleWorld with _id := 0 }).1.Pairwise
          (fun e1 e2 => ∀ r, e2 = .returned r → e1.id ≠ r)) ∧
    returnedIds (runIdCalls [.getNextId, .UpdateId 40, .getId, .getNextId]
      { sampleWorld with _id := 0 }).1 = [1, 41] :=
  ⟨ids_increase_without_wrap [.getNextId, .UpdateId 40, .getId, .getNextId]
    { sampleWorld with _id := 0 } (by decide), by decide⟩

/-- C13.  `UpdateId(n)` leaves the counter at the larger of the counter before
and `n`: it raises the counter to `n` when `n` exceeds it and changes nothing
otherwise, never lowers the counter, and a second `UpdateId(n)` changes
nothing.  When the counter it leaves is below the largest 32-bit value, the
next `getNextId` returns an id above `n`. -/
theorem UpdateId_max (n : quint32) (w : World) :
    (VContainer.UpdateId n w)._id = max w._id n ∧
      (w._id < n → (VContainer.UpdateId n w)._id = n) ∧
      (n ≤ w._id → VContainer.UpdateId n w = w) ∧
      w._id ≤ (VContainer.UpdateId n w)._id ∧
      VContainer.UpdateId n (VContainer.UpdateId n w) = VContainer.UpdateId n w ∧
      (max w._id n < UINT_MAX → n < (VContainer.getNextId (VContainer.UpdateId n w)).1) := by
  have hid := UpdateId_id n w
  refine ⟨hid, ?_, ?_, ?_, ?_, ?_⟩
  · intro h
    rw [hid]
    exact max_eq_right (le_of_lt h)
  · intro h
    unfold VContainer.UpdateId
    rw [if_neg (not_lt.mpr h)]
  · rw [hid]
    exact le_max_left _ _
  · have h2 : ¬ n > (VContainer.UpdateId n w)._id := by
      rw [hid]
      exact not_lt.mpr (le_max_right _ _)
    show (if n > (VContainer.UpdateId n w)._id then _ else _) = _
    rw [if_neg h2]
  · intro h
    have h3 : (VContainer.UpdateId n w)._id < UINT_MAX := by
      rw [hid]
      exact h
    rw [(getNextId_lt _ h3).1, hid]
    exact Nat.lt_succ_of_le (le_max_right _ _)

/-- C14.  When `AddVariable(name, var)` throws, the error is the mismatch error,
and in the state it leaves the container has the variables map (so the binding
of `name` and of every other name) and the objects map it had before, and the
registry is the registry before; when the body was not shared, nothing at all
has changed. -/
theorem AddVariable_failure_atomic (name : QString) (var : Option VInternalVariable)
    (s : State) (b : VContainerData) (e : Exception) (s2 : State)
    (hb : constData s = some b) (h : VContainer.AddVariable name var s = .thrown e s2) :
    e = .VExceptionBadId msgMismatch (.inr name) ∧
      ∃ d2, constData s2 = some d2 ∧ d2.variables_ = b.variables_ ∧
        d2.gObjects = b.gObjects ∧ s2.2.uniqueNames = s.2.uniqueNames ∧
        (b.ref = 1 → s2 = s) := by
  obtain ⟨d1, s1, hc, hg, hv, -, hu, -, hone, ho⟩ := AddVariable_outcome name var s b hb
  rcases ho with ho | ⟨ho, -⟩ | ⟨ho, -⟩
  · rw [ho] at h
    cases h
  · rw [ho] at h
    cases h
    exact ⟨rfl, d1, hc, hv, hg, hu, hone⟩
  · rw [ho] at h
    cases h

/-- In the sample container an increment is refused under `bust`; the body is
not shared, so the state is the state before. -/
theorem AddVariable_failure_atomic_witness :
    Exception.VExceptionBadId msgMismatch (.inr "bust")
        = .VExceptionBadId msgMismatch (.inr "bust") ∧
      ∃ d2, constData (sampleContainer, sampleWorld) = some d2 ∧
        d2.variables_ = sampleData.variables_ ∧ d2.gObjects = sampleData.gObjects ∧
        (sampleContainer, sampleWorld).2.uniqueNames
          = (sampleContainer, sampleWorld).2.uniqueNames ∧
        (sampleData.ref = 1 → (sampleContainer, sampleWorld) = (sampleContainer, sampleWorld)) :=
  AddVariable_failure_atomic "bust" (some sampleIncrement) (sampleContainer, sampleWorld)
    sampleData (.VExceptionBadId msgMismatch (.inr "bust")) (sampleContainer, sampleWorld)
    (by decide) (by decide)

/-- C15, as stated, fails in its last part: with assertions compiled out,
`GetVariable` looks up the variable added to the sample container under the
empty name and returns it. -/
theorem empty_name_binding_looked_up :
    (VContainer.AddVariable "" (some sampleIncrement)
        (sampleContainer, sampleWorld)).state.map
      (fun s2 => (VContainer.GetVariable sampleIsA false "VIncrement" "" s2).result)
      = some (.value (some sampleIncrement)) := by
  decide

/-- C15, amended.  For a name that is not bound, the empty name included,
`AddVariable(name, v)` returns normally, binds `name` to `v` and records `name`
in the registry; under the empty name, `GetVariable` aborts when assertions are
compiled in and returns the binding when they are compiled out.  On any name,
`AddVariable` throws only the mismatch error, and only when the name is bound
to a variable whose category tag differs from the tag of the argument. -/
theorem AddVariable_unbound (isA : ClassName → ClassName → Bool) (T : ClassName)
    (name : QString) (v : VInternalVariable) (s : State) (b : VContainerData)
    (hb : constData s = some b) (hu : b.variables_.find name = none) :
    (∃ s2 d2, VContainer.AddVariable name (some v) s = .ok () s2 ∧ constData s2 = some d2 ∧
        d2.variables_.find name = some (some v) ∧ name ∈ s2.2.uniqueNames ∧
        (name = "" → VContainer.GetVariable isA true T name s2 = .aborted ∧
          (isA v.dynClass T = true →
            VContainer.GetVariable isA false T name s2 = .ok (some v) s2))) ∧
      (∀ n var e s3, VContainer.AddVariable n var s = .thrown e s3 →
        e = .VExceptionBadId msgMismatch (.inr n) ∧
          ∃ stored u, b.variables_.find n = some (some stored) ∧ var = some u ∧
            stored.GetType ≠ u.GetType) := by
  constructor
  · obtain ⟨d1, s1, -, -, -, -, -, -, -, ho⟩ := AddVariable_outcome name (some v) s b hb
    have hfind : ({ d1 with variables_ := d1.variables_.insert name (some v) } :
        VContainerData).variables_.find name = some (some v) := QHash.find_insert_self _ _ _
    have hcd := constData_committed name (some v) d1 s1
    rcases ho with ho | ⟨-, stored, u, hf, -⟩ | ⟨-, hf | ⟨-, hf⟩⟩
    · refine ⟨committed name (some v) d1 s1, _, ho, hcd, hfind, ?_, ?_⟩
      · show name ∈ QSet.insert s1.2.uniqueNames name
        exact (QSet.mem_insert _ _ _).mpr (Or.inl rfl)
      · intro hn
        subst hn
        exact ⟨GetVariable_rejected isA true T "" _ (by decide),
          fun hT => GetVariable_found isA false T "" _ _ v (by decide) hcd hfind hT⟩
    · rw [hu] at hf
      cases hf
    · rw [hu] at hf
      cases hf
    · simp [QHash.contains, hu] at hf
  · intro n var e s3 h
    obtain ⟨d1, s1, -, -, -, -, -, -, -, ho⟩ := AddVariable_outcome n var s b hb
    rcases ho with ho | ⟨ho, hex⟩ | ⟨ho, -⟩
    · rw [ho] at h
      cases h
    · rw [ho] at h
      cases h
      exact ⟨rfl, hex⟩
    · rw [ho] at h
      cases h

/-- The empty name is unbound in the sample container: an increment is added
under it. -/
theorem AddVariable_unbound_witness :
    (∃ s2 d2, VContainer.AddVariable "" (some sampleIncrement) (sampleContainer, sampleWorld)
          = .ok () s2 ∧ constData s2 = some d2 ∧
        d2.variables_.find "" = some (some sampleIncrement) ∧ "" ∈ s2.2.uniqueNames ∧
        (("" : QString) = "" →
          VContainer.GetVariable sampleIsA true "VIncrement" "" s2 = .aborted ∧
          (sampleIsA sampleIncrement.dynClass "VIncrement" = true →
            VContainer.GetVariable sampleIsA false "VIncrement" "" s2
              = .ok (some sampleIncrement) s2))) ∧
      (∀ n var e s3, VContainer.AddVariable n var (sampleContainer, sampleWorld)
          = .thrown e s3 →
        e = .VExceptionBadId msgMismatch (.inr n) ∧
          ∃ stored u, sampleData.variables_.find n = some (some stored) ∧ var = some u ∧
            stored.GetType ≠ u.GetType) :=
  AddVariable_unbound sampleIsA "VIncrement" "" sampleIncrement (sampleContainer, sampleWorld)
    sampleData (by decide) (by decide)

/-- C16.  When no handle of the variables map is null and `v` is not null,
`AddVariable(name, v)` returns or throws, and in the state it leaves no handle
of the variables map is null: on the replacing path the cleared handle is
overwritten before the call returns.  In that state every bound name holds a
variable, and `GetVariable<T>` on a non-empty name bound to a variable
convertible to `T` passes its assertion and returns that variable. -/
theorem AddVariable_keeps_nonnull (name : QString) (v : VInternalVariable) (s : State)
    (b : VContainerData) (hb : constData s = some b)
    (hinv : ∀ n, b.variables_.find n ≠ some none) :
    (∃ s2, (VContainer.AddVariable name (some v) s).state = some s2) ∧
      (∀ s2, (VContainer.AddVariable name (some v) s).state = some s2 →
        ∃ d2, constData s2 = some d2 ∧ (∀ n, d2.variables_.find n ≠ some none) ∧
          ∀ n, d2.variables_.contains n = true →
            ∃ g, d2.variables_.value n none = some g ∧
              ∀ (isA : ClassName → ClassName → Bool) (asserts : Bool) (T : ClassName),
                n.isEmpty = false → isA g.dynClass T = true →
                  VContainer.GetVariable isA asserts T n s2 = .ok (some g) s2) := by
  refine ⟨AddVariable_state_some name v s b hb (hinv name), ?_⟩
  have hget : ∀ (s2 : State) (d2 : VContainerData), constData s2 = some d2 →
      (∀ n, d2.variables_.find n ≠ some none) →
      ∀ n, d2.variables_.contains n = true →
        ∃ g, d2.variables_.value n none = some g ∧
          ∀ (isA : ClassName → ClassName → Bool) (asserts : Bool) (T : ClassName),
            n.isEmpty = false → isA g.dynClass T = true →
              VContainer.GetVariable isA asserts T n s2 = .ok (some g) s2 := by
    intro s2 d2 hd2 hi n hc
    cases hf : d2.variables_.find n with
    | none => simp [QHash.contains, hf] at hc
    | some p =>
      cases p with
      | none => exact absurd hf (hi n)
      | some g =>
        refine ⟨g, value_of_find none hf, ?_⟩
        intro isA asserts T hn hT
        exact GetVariable_found isA asserts T n s2 d2 g (SCASSERT_nonempty asserts n hn)
          hd2 hf hT
  obtain ⟨d1, s1, hc, -, hv, -, -, -, -, ho⟩ := AddVariable_outcome name (some v) s b hb
  intro s2 h2
  rcases ho with ho | ⟨ho, -⟩ | ⟨ho, -⟩
  · rw [ho] at h2
    cases h2
    have hi : ∀ n, ({ d1 with variables_ := d1.variables_.insert name (some v) } :
        VContainerData).variables_.find n ≠ some none := by
      show ∀ n, (d1.variables_.insert name (some v)).find n ≠ some none
      rw [hv]
      exact nonnull_insert _ name v hinv
    exact ⟨_, constData_committed name (some v) d1 s1, hi,
      hget _ _ (constData_committed name (some v) d1 s1) hi⟩
  · rw [ho] at h2
    cases h2
    have hi : ∀ n, d1.variables_.find n ≠ some none := by
      rw [hv]
      exact hinv
    exact ⟨d1, hc, hi, hget _ _ hc hi⟩
  · rw [ho] at h2
    cases h2

/-- The sample container holds no null handle; a second measurement replaces
`bust`. -/
theorem AddVariable_keeps_nonnull_witness :
    ((∃ s2, (VContainer.AddVariable "bust" (some sampleMeasurement2)
          (sampleContainer, sampleWorld)).state = some s2) ∧
      (∀ s2, (VContainer.AddVariable "bust" (some sampleMeasurement2)
          (sampleContainer, sampleWorld)).state = some s2 →
        ∃ d2, constData s2 = some d2 ∧ (∀ n, d2.variables_.find n ≠ some none) ∧
          ∀ n, d2.variables_.contains n = true →
            ∃ g, d2.variables_.value n none = some g ∧
              ∀ (isA : ClassName → ClassName → Bool) (asserts : Bool) (T : ClassName),
                n.isEmpty = false → isA g.dynClass T = true →
                  VContainer.GetVariable isA asserts T n s2 = .ok (some g) s2)) ∧
    (VContainer.AddVariable "bust" (some sampleMeasurement2)
        (sampleContainer, sampleWorld)).state.map
      (fun s2 => (VContainer.GetVariable sampleIsA true "VMeasurement" "bust" s2).result)
      = some (.value (some sampleMeasurement2)) :=
  ⟨AddVariable_keeps_nonnull "bust" sampleMeasurement2 (sampleContainer, sampleWorld) sampleData
    (by decide) (by
      intro n
      by_cases hn : n = "bust"
      · subst hn
        decide
      · have h : sampleData.variables_.find n = none := by
          simp [sampleData, QHash.find, QHash.insert, QHash.empty, QHash.insertEntries,
            QHash.findEntries, Ne.symm hn]
        rw [h]
        simp), by decide⟩

end Seamly2D
